import Mathlib

/-!
Verification of `src/ops/SHIB/04-02-2024-connect-avax/generate_remote_chains.py`.

The script has three parts, each embedded below:
* `pad_address_to_bytes` — strips every occurrence of the two-character marker
  `"0x"` from the input (Python `str.replace('0x', '')`), left-pads the result
  with `'0'` to 64 characters (Python `str.zfill`), and re-attaches `"0x"`.
* `update_tx_builder` — clones the first transaction of a template document
  once per entry of a selector-to-pool mapping, replacing the clone's
  `contractInputsValues` object by a fresh two-key object.
* `main` — assembles the hard-coded mapping and template, runs the expansion
  inside a catch-all handler, writes/prints the result, and exits with code 1
  on any failure.

Python dictionaries are modelled as insertion-ordered association lists,
machine-level mutation (for the frame claims) by an explicit store, and
fallible operations by `Except` / `Option`.
-/

namespace TokenPools

/-! ### String helpers: Python `str.replace('0x', '')` and `str.zfill` -/

/-- Python `s.replace('0x', '')`: remove every non-overlapping occurrence of
the two-character substring `"0x"`, scanning left to right. -/
def replace0x : List Char → List Char
  | [] => []
  | [c] => [c]
  | c1 :: c2 :: rest =>
    if c1 = '0' ∧ c2 = 'x' then replace0x rest
    else c1 :: replace0x (c2 :: rest)

/-- Python `s.zfill(width)`: left-fill with `'0'` up to `width`; a no-op when
the string already has at least `width` characters; a leading sign character
keeps its place in front of the inserted zeros. -/
def zfill (width : Nat) (s : List Char) : List Char :=
  if width ≤ s.length then s
  else
    match s with
    | [] => List.replicate width '0'
    | c :: rest =>
      if c = '+' ∨ c = '-' then
        c :: (List.replicate (width - (rest.length + 1)) '0' ++ rest)
      else
        List.replicate (width - (rest.length + 1)) '0' ++ (c :: rest)

/-- A hexadecimal digit, the alphabet of Ethereum address payloads. -/
def isHexChar (c : Char) : Bool :=
  c.isDigit || (decide ('a' ≤ c) && decide (c ≤ 'f'))
    || (decide ('A' ≤ c) && decide (c ≤ 'F'))

/-- `pad_address_to_bytes` from the script: strip the `0x` marker, zero-fill
to 64 characters, put the marker back (`f"0x{padded}"`). -/
def pad_address_to_bytes (address : String) : String :=
  let clean_address := replace0x address.data
  let padded := zfill 64 clean_address
  String.mk ('0' :: 'x' :: padded)

/-! ### Data model: JSON documents as values, Python dicts as ordered
association lists (Python dicts preserve insertion order; assigning an
existing key keeps its position, assigning a new key appends). -/

inductive Json where
  | null
  | boolJ (b : Bool)
  | numJ (n : Int)
  | str (s : String)
  | arr (elems : List Json)
  | obj (fields : List (String × Json))

/-- Errors that the Python operations modelled here can raise. -/
inductive PyErr where
  | keyError
  | indexError
  | typeError
  deriving DecidableEq

/-- Ordered-dict assignment `d[k] = v`: an existing key keeps its position
and gets the new value; a missing key is appended at the end. -/
def objSetFields (fs : List (String × Json)) (k : String) (v : Json) :
    List (String × Json) :=
  if fs.any (fun p => p.1 = k) then
    fs.map (fun p => if p.1 = k then (k, v) else p)
  else
    fs ++ [(k, v)]

/-- Dict read `d[k]` as used by the script: `KeyError` on a missing key,
`TypeError` when the value is not a dict. -/
def getItem (j : Json) (k : String) : Except PyErr Json :=
  match j with
  | .obj fs =>
    match fs.find? (fun p => p.1 = k) with
    | some p => .ok p.2
    | none => .error .keyError
  | _ => .error .typeError

/-- List read `l[0]`: `IndexError` on an empty list.  (The claims only
concern documents whose `transactions` value is a list.) -/
def index0 (j : Json) : Except PyErr Json :=
  match j with
  | .arr [] => .error .indexError
  | .arr (x :: _) => .ok x
  | _ => .error .typeError

/-- Dict assignment `d[k] = v`: `TypeError` when the target is not a dict. -/
def setItem (j : Json) (k : String) (v : Json) : Except PyErr Json :=
  match j with
  | .obj fs => .ok (.obj (objSetFields fs k v))
  | _ => .error .typeError

/-- The fresh `contractInputsValues` dict built in the loop body of
`update_tx_builder`. -/
def mkCIV (selector pool_address : String) : Json :=
  .obj [("remoteChainSelector", .str selector),
        ("remotePoolAddress", .str (pad_address_to_bytes pool_address))]

/-- The `for selector, pool_address in selector_to_pool.items()` loop:
build one new transaction per entry, in insertion order, stopping at the
first raised error. -/
def mapE (f : α → Except PyErr β) : List α → Except PyErr (List β)
  | [] => .ok []
  | a :: as =>
    match f a with
    | .error e => .error e
    | .ok b =>
      match mapE f as with
      | .error e => .error e
      | .ok bs => .ok (b :: bs)

/-- `update_tx_builder` from the script, on document values.  `deepcopy` is
the identity on values (the aliasing/mutation side is settled separately on
the store model below); the control flow — read `template['transactions'][0]`,
build the new transaction list, then assign `updated_template['transactions']`
— is kept in the source's order. -/
def update_tx_builder (template : Json)
    (selector_to_pool : List (String × String)) : Except PyErr Json :=
  match getItem template "transactions" with
  | .error e => .error e
  | .ok txs =>
    match index0 txs with
    | .error e => .error e
    | .ok tx_template =>
      match mapE (fun p => setItem tx_template "contractInputsValues"
          (mkCIV p.1 p.2)) selector_to_pool with
      | .error e => .error e
      | .ok new_transactions =>
        setItem template "transactions" (Json.arr new_transactions)

/-! ### The script's hard-coded constants -/

def ARB_TOKEN_POOL : String := "0x6f93AD7963BBdD8C655A0C819B9b79347EE04b70"
def AVAX_TOKEN_POOL : String := "0x6f6F5645B86b1fD3c4C015822a0E672132D4e2F8"
def BASE_TOKEN_POOL : String := "0xC026ae03C857093979872C665b13dBBA83B55987"
def BSC_TOKEN_POOL : String := "0x7f1f90E6b6BAD9fc14ca71224B072541B739beb3"
def MAINNET_TOKEN_POOL : String := "0x3eC718a22B268d7d9Ce27D2dcAB791174D515920"

def AVAX_SELECTOR : String := "6433500567565415381"
def ARB_SELECTOR : String := "4949039107694359620"
def BASE_SELECTOR : String := "15971525489660198786"
def BSC_SELECTOR : String := "11344663589394136015"

/-- The mapping assembled in `main`, in its insertion order. -/
def selector_to_pool : List (String × String) :=
  [(ARB_SELECTOR, ARB_TOKEN_POOL),
   (BASE_SELECTOR, BASE_TOKEN_POOL),
   (BSC_SELECTOR, BSC_TOKEN_POOL)]

/-- The fields of the single template transaction of `tx_builder_template`. -/
def tx_template0_fields : List (String × Json) :=
  [("to", .str "0x6f6F5645B86b1fD3c4C015822a0E672132D4e2F8"),
   ("value", .str "0"),
   ("data", .null),
   ("contractMethod", .obj
     [("inputs", .arr
       [.obj [("internalType", .str "uint64"),
              ("name", .str "remoteChainSelector"),
              ("type", .str "uint64")],
        .obj [("internalType", .str "bytes"),
              ("name", .str "remotePoolAddress"),
              ("type", .str "bytes")]]),
      ("name", .str "addRemotePool"),
      ("payable", .boolJ false)]),
   ("contractInputsValues", .obj
     [("remoteChainSelector", .str "0"),
      ("remotePoolAddress", .str "0x0")])]

/-- The single template transaction of the base document. -/
def tx_template0 : Json := .obj tx_template0_fields

/-- The top-level fields of the base document. -/
def tb_fields : List (String × Json) :=
  [("version", .str "1.0"),
   ("chainId", .str "43114"),
   ("createdAt", .numJ 1738784020211),
   ("meta", .obj
     [("name", .str "Token Pool Chain Updates"),
      ("description", .str ""),
      ("txBuilderVersion", .str "1.18.0"),
      ("createdFromSafeAddress", .str "0xbF6512B1bBEeC3a673Feff43C0A182C2b28DFD9f"),
      ("createdFromOwnerAddress", .str ""),
      ("checksum", .str "0x9e720fd0c8bace9ee9ac950de106fd7d1081311426122e814e5c094c602a4cd6")]),
   ("transactions", .arr [tx_template0])]

/-- `tx_builder_template` from `main`: the base document. -/
def tx_builder_template : Json := .obj tb_fields

/-! ### Observation helpers used in the claim statements -/

/-- Dict lookup as an `Option`, for stating properties. -/
def objGet : Json → String → Option Json
  | .obj fs, k => (fs.find? (fun p => p.1 = k)).map Prod.snd
  | _, _ => none

/-- The transaction list of a document (empty when absent or not a list). -/
def txsOf (doc : Json) : List Json :=
  match doc with
  | .obj fs =>
    match fs.find? (fun p => p.1 = "transactions") with
    | some (_, .arr l) => l
    | _ => []
  | _ => []

/-- A field of a transaction's `contractInputsValues` object. -/
def civField (tx : Json) (k : String) : Option Json :=
  match objGet tx "contractInputsValues" with
  | some civ => objGet civ k
  | none => none

/-- Like `civField` but projected to the string payload, so that concrete
instances are decidable. -/
def civFieldStr (tx : Json) (k : String) : Option String :=
  match civField tx k with
  | some (.str s) => some s
  | _ => none

/-! ### Store model for the mutation/aliasing claims

Python objects live on a heap: only lists and dicts are mutable; `None`,
booleans, numbers and strings are immutable atoms (`copy.deepcopy` returns
them unchanged).  A `Store` is the heap, a list of container nodes indexed
by address; `HRef` is a Python reference: an immutable atom carried inline,
or the address of a container.  `deepcopy` allocates fresh container nodes
recursively; it is fuel-indexed so that it stays executable (the fuel only
bounds the recursion depth of the copied graph). -/

inductive Atom where
  | nullA
  | boolA (b : Bool)
  | intA (n : Int)
  | strA (s : String)

inductive HRef where
  | atom (v : Atom)
  | ref (a : Nat)

inductive HVal where
  | arrH (elems : List HRef)
  | objH (fields : List (String × HRef))

abbrev Store := List HVal

/-- The value of an immutable atom, as a document value. -/
def atomJson : Atom → Json
  | .nullA => .null
  | .boolA b => .boolJ b
  | .intA n => .numJ n
  | .strA s => .str s

/-- `copy.deepcopy` on the elements of a list, left to right. -/
def deepcopyRefs (cp : Store → HRef → Option (Store × HRef)) :
    Store → List HRef → Option (Store × List HRef)
  | s, [] => some (s, [])
  | s, r :: rs =>
    match cp s r with
    | none => none
    | some (s1, r1) =>
      match deepcopyRefs cp s1 rs with
      | none => none
      | some (s2, rs2) => some (s2, r1 :: rs2)

/-- `copy.deepcopy` on the entries of a dict, in insertion order. -/
def deepcopyFields (cp : Store → HRef → Option (Store × HRef)) :
    Store → List (String × HRef) → Option (Store × List (String × HRef))
  | s, [] => some (s, [])
  | s, (k, r) :: fs =>
    match cp s r with
    | none => none
    | some (s1, r1) =>
      match deepcopyFields cp s1 fs with
      | none => none
      | some (s2, fs2) => some (s2, (k, r1) :: fs2)

/-- `copy.deepcopy`: atoms are returned unchanged, containers are rebuilt
from fresh copies of their children and appended to the store at a fresh
address. -/
def deepcopyRef : Nat → Store → HRef → Option (Store × HRef)
  | _, s, .atom v => some (s, .atom v)
  | 0, _, .ref _ => none
  | fuel + 1, s, .ref a =>
    match s[a]? with
    | none => none
    | some (.arrH es) =>
      match deepcopyRefs (deepcopyRef fuel) s es with
      | none => none
      | some (s1, es1) => some (s1 ++ [.arrH es1], .ref s1.length)
    | some (.objH fs) =>
      match deepcopyFields (deepcopyRef fuel) s fs with
      | none => none
      | some (s1, fs1) => some (s1 ++ [.objH fs1], .ref s1.length)

/-- Read the elements of a list out of the store. -/
def readRefs (rd : HRef → Option Json) : List HRef → Option (List Json)
  | [] => some []
  | r :: rs =>
    match rd r with
    | none => none
    | some j => (readRefs rd rs).map (fun js => j :: js)

/-- Read the entries of a dict out of the store. -/
def readFields (rd : HRef → Option Json) :
    List (String × HRef) → Option (List (String × Json))
  | [] => some []
  | (k, r) :: fs =>
    match rd r with
    | none => none
    | some j => (readFields rd fs).map (fun js => (k, j) :: js)

/-- The document value a reference denotes: the observable content of an
object graph, used to compare a document's content before and after a call. -/
def readRef : Nat → Store → HRef → Option Json
  | _, _, .atom v => some (atomJson v)
  | 0, _, .ref _ => none
  | g + 1, s, .ref a =>
    match s[a]? with
    | none => none
    | some (.arrH es) => (readRefs (readRef g s) es).map Json.arr
    | some (.objH fs) => (readFields (readRef g s) fs).map Json.obj

/-- Ordered-dict assignment on heap fields (same discipline as
`objSetFields`). -/
def objSetFieldsH (fs : List (String × HRef)) (k : String) (v : HRef) :
    List (String × HRef) :=
  if fs.any (fun p => p.1 = k) then
    fs.map (fun p => if p.1 = k then (k, v) else p)
  else
    fs ++ [(k, v)]

/-- Heap dict read `d[k]`. -/
def getItemH (s : Store) (a : Nat) (k : String) : Option HRef :=
  match s[a]? with
  | some (.objH fs) => (fs.find? (fun p => p.1 = k)).map Prod.snd
  | _ => none

/-- Heap dict assignment `d[k] = v`: mutates the node at address `a`. -/
def setItemH (s : Store) (a : Nat) (k : String) (v : HRef) : Option Store :=
  match s[a]? with
  | some (.objH fs) => some (s.set a (.objH (objSetFieldsH fs k v)))
  | _ => none

/-- Heap dict assignment through a reference (`TypeError` on an atom). -/
def setItemRef (s : Store) (r : HRef) (k : String) (v : HRef) : Option Store :=
  match r with
  | .ref a => setItemH s a k v
  | .atom _ => none

/-- The fresh two-key `contractInputsValues` dict node allocated by one loop
iteration of `update_tx_builder` (its values are immutable strings). -/
def civOf (selector pool_address : String) : HVal :=
  .objH [("remoteChainSelector", .atom (.strA selector)),
         ("remotePoolAddress", .atom (.strA (pad_address_to_bytes pool_address)))]

/-- The loop body of `update_tx_builder` on the heap: per mapping entry,
deep-copy the transaction template, allocate the fresh two-key
`contractInputsValues` dict, and assign it into the copy. -/
def buildTxs (fuel : Nat) :
    Store → HRef → List (String × String) → Option (Store × List HRef)
  | s, _, [] => some (s, [])
  | s, txT, (selector, pool_address) :: rest =>
    match deepcopyRef fuel s txT with
    | none => none
    | some (s1, new_tx) =>
      match setItemRef (s1 ++ [civOf selector pool_address]) new_tx
          "contractInputsValues" (.ref s1.length) with
      | none => none
      | some s2 =>
        match buildTxs fuel s2 txT rest with
        | none => none
        | some (s3, txs) => some (s3, new_tx :: txs)

/-- `update_tx_builder` on the heap, mutation included:
`updated_template = deepcopy(template)`;
`tx_template = deepcopy(template['transactions'][0])`;
the loop; the fresh transaction list; and finally
`updated_template['transactions'] = new_transactions`. -/
def update_tx_builder_heap (fuel : Nat) (s : Store) (template : Nat)
    (selector_to_pool : List (String × String)) : Option (Store × Nat) :=
  match deepcopyRef fuel s (.ref template) with
  | some (s1, .ref updated_template) =>
    match getItemH s1 template "transactions" with
    | some (.ref txs_a) =>
      match s1[txs_a]? with
      | some (.arrH (tx0 :: _)) =>
        match deepcopyRef fuel s1 tx0 with
        | none => none
        | some (s2, tx_template) =>
          match buildTxs fuel s2 tx_template selector_to_pool with
          | none => none
          | some (s3, new_transactions) =>
            match setItemH (s3 ++ [.arrH new_transactions]) updated_template
                "transactions" (.ref s3.length) with
            | none => none
            | some s4 => some (s4, updated_template)
      | _ => none
    | _ => none
  | _ => none

/-- `s'` agrees with `s` at every address below `n`. -/
def extBelow (n : Nat) (s s' : Store) : Prop :=
  ∀ i, i < n → s'[i]? = s[i]?

/-- A reference points into the half-open address window `[lo, hi)` (atoms
carry no address). -/
def RefIn (lo hi : Nat) : HRef → Prop
  | .atom _ => True
  | .ref a => lo ≤ a ∧ a < hi

/-- All child references of a node lie in the window `[lo, hi)`. -/
def HValChildrenIn (lo hi : Nat) : HVal → Prop
  | .arrH es => ∀ r ∈ es, RefIn lo hi r
  | .objH fs => ∀ p ∈ fs, RefIn lo hi p.2

/-- Every node stored at an address `≥ lo` has all its children at
addresses in `[lo, s.length)`: the region of addresses allocated since the
store had length `lo` is closed (it never points back below `lo`). -/
def NewRegionOK (lo : Nat) (s : Store) : Prop :=
  ∀ a v, lo ≤ a → s[a]? = some v → HValChildrenIn lo s.length v

/-- An address is a child of a node. -/
def childAddr : HVal → Nat → Prop
  | .arrH es, b => HRef.ref b ∈ es
  | .objH fs, b => ∃ k, (k, HRef.ref b) ∈ fs

/-- Heap reachability: the addresses one can mutate through a reference to
`a`. -/
inductive ReachH (s : Store) : Nat → Nat → Prop
  | refl (a : Nat) : ReachH s a a
  | step (a b c : Nat) (v : HVal) :
      s[a]? = some v → childAddr v b → ReachH s b c → ReachH s a c

/-! ### Concrete store used to witness the mutation claim -/

/-- A small concrete heap holding a base document shaped like the script's
template: address 3 is the document, 2 its transaction list, 1 the single
transaction, 0 the transaction's `contractInputsValues`. -/
def W0 : Store :=
  [.objH [("remoteChainSelector", .atom (.strA "0")),
          ("remotePoolAddress", .atom (.strA "0x0"))],
   .objH [("to", .atom (.strA "0xA")), ("contractInputsValues", .ref 0)],
   .arrH [.ref 1],
   .objH [("version", .atom (.strA "1.0")), ("transactions", .ref 2)]]

/-- The mapping used by the witness for the mutation claim. -/
def Wm : List (String × String) := [("1", "0x2")]

/-- The content of the witness base document, as a value. -/
def WJ : Json := .obj
  [("version", .str "1.0"),
   ("transactions", .arr
     [.obj [("to", .str "0xA"),
            ("contractInputsValues", .obj
              [("remoteChainSelector", .str "0"),
               ("remotePoolAddress", .str "0x0")])]])]

/-- The store and result address of the witness run. -/
def W1 : Store × Nat := (update_tx_builder_heap 10 W0 3 Wm).getD ([], 0)

/-! ### Model of `main` for the error-handling claim

`main` prints `"running"`, then runs the expansion, the file write and the
two remaining prints inside one `try`; any exception is caught by the
catch-all handler, printed as `Error occurred: ...`, and turned into
`exit(1)`.  The outcome of the file write (the one operation whose failure
is outside the program's control) is the model's input; `main_run` is a
total function — the only outputs are the printed lines, the exit code and
the written file, so no error escapes in any other form. -/

inductive OutLine where
  | runningLine
  | dumpLine (doc : Json)
  | successLine (filename : String)
  | errorLine (msg : String)

/-- What a run of `main` produces: printed lines, the process exit code,
and the content written to `updated_tx_builder.json` (if any). -/
structure RunResult where
  out : List OutLine
  exitCode : Nat
  file : Option Json

/-- The description of a caught Python error, as printed by `str(e)`. -/
def pyErrMsg : PyErr → String
  | .keyError => "KeyError"
  | .indexError => "IndexError"
  | .typeError => "TypeError"

/-- `main` from the script.  `writeResult` is the outcome of
`json.dump(..., f)`; an exception there, like one from the expansion, falls
into the catch-all handler. -/
def main_run (writeResult : Except String Unit) : RunResult :=
  match update_tx_builder tx_builder_template selector_to_pool with
  | .error e =>
    ⟨[.runningLine, .errorLine ("Error occurred: " ++ pyErrMsg e)], 1, none⟩
  | .ok updated_template =>
    match writeResult with
    | .error msg =>
      ⟨[.runningLine, .errorLine ("Error occurred: " ++ msg)], 1, none⟩
    | .ok _ =>
      ⟨[.runningLine, .dumpLine updated_template,
        .successLine "updated_tx_builder.json"], 0, some updated_template⟩

/-- The document produced by `main`'s expansion of the hard-coded constants. -/
def docMain : Json :=
  match update_tx_builder tx_builder_template selector_to_pool with
  | .ok d => d
  | .error _ => .null

/-! ### Concrete documents used by counterexamples -/

/-- The end-to-end scenario document: the standard base document expanded
with the single-entry mapping of the AVAX-connect operation. -/
def doc_arb : Json :=
  match update_tx_builder tx_builder_template [(ARB_SELECTOR, ARB_TOKEN_POOL)] with
  | .ok d => d
  | .error _ => .null

/-- The `remotePoolAddress` of the scenario's single output transaction. -/
def arb_pool_out : Option String :=
  match (txsOf doc_arb)[0]? with
  | some tx => civFieldStr tx "remotePoolAddress"
  | none => none

/-- The `remoteChainSelector` of the scenario's single output transaction. -/
def arb_selector_out : Option String :=
  match (txsOf doc_arb)[0]? with
  | some tx => civFieldStr tx "remoteChainSelector"
  | none => none

/-- The fields of a probe transaction carrying an extra key inside
`contractInputsValues`. -/
def tx_extra_fields : List (String × Json) :=
  [("note", .str "keep"),
   ("contractInputsValues", .obj
     [("remoteChainSelector", .str "0"),
      ("remotePoolAddress", .str "0x0"),
      ("extraKey", .str "keepme")])]

/-- The fields of a base document whose template transaction is the probe
transaction. -/
def template_extra_fields : List (String × Json) :=
  [("transactions", .arr [.obj tx_extra_fields])]

/-- A base document whose template transaction carries an extra key inside
`contractInputsValues`, to probe whether such keys survive the expansion. -/
def template_extra : Json := .obj template_extra_fields

/-- `template_extra` expanded with a one-entry mapping. -/
def doc_extra : Json :=
  match update_tx_builder template_extra [("1", "0xab")] with
  | .ok d => d
  | .error _ => .null

/-- The extra `contractInputsValues` key of the first output transaction of
`doc_extra`. -/
def extra_key_out : Option String :=
  match (txsOf doc_extra)[0]? with
  | some tx => civFieldStr tx "extraKey"
  | none => none

end TokenPools

namespace TokenPools

/-! ### Lemmas about the padding helpers -/

lemma replace0x_of_no_x : ∀ d : List Char, (∀ c ∈ d, c ≠ 'x') → replace0x d = d
  | [], _ => rfl
  | [_], _ => rfl
  | c1 :: c2 :: rest, h => by
    have hc2 : c2 ≠ 'x' := h c2 (by simp)
    rw [replace0x, if_neg (by
      rintro ⟨-, h2⟩
      exact hc2 h2)]
    have htail : ∀ c ∈ c2 :: rest, c ≠ 'x' := by
      intro c hc
      exact h c (List.mem_cons_of_mem _ hc)
    rw [replace0x_of_no_x (c2 :: rest) htail]

lemma hex_no_x {d : List Char} (h : ∀ c ∈ d, isHexChar c = true) :
    ∀ c ∈ d, c ≠ 'x' := by
  intro c hc he
  subst he
  have := h _ hc
  simp [isHexChar] at this

lemma hex_not_sign {c : Char} (h : isHexChar c = true) :
    ¬ (c = '+' ∨ c = '-') := by
  rintro (he | he) <;> (subst he; simp [isHexChar] at h)

lemma replace0x_marker (d : List Char) :
    replace0x ('0' :: 'x' :: d) = replace0x d := by
  rw [replace0x, if_pos ⟨rfl, rfl⟩]

lemma zfill_of_le (d : List Char) (hhex : ∀ c ∈ d, isHexChar c = true)
    (hlen : d.length ≤ 64) :
    zfill 64 d = List.replicate (64 - d.length) '0' ++ d := by
  rw [zfill.eq_def]
  by_cases h64 : 64 ≤ d.length
  · have : d.length = 64 := le_antisymm hlen h64
    rw [if_pos h64, this]
    simp
  · rw [if_neg h64]
    match d, hhex with
    | [], _ => simp
    | c :: rest, hhex =>
      have hc : isHexChar c = true := hhex c (by simp)
      show (if c = '+' ∨ c = '-' then c :: (List.replicate (64 - (rest.length + 1)) '0' ++ rest)
            else List.replicate (64 - (rest.length + 1)) '0' ++ (c :: rest))
          = List.replicate (64 - (c :: rest).length) '0' ++ (c :: rest)
      rw [if_neg (hex_not_sign hc)]
      rfl

lemma zfill_of_ge (d : List Char) (hlen : 64 ≤ d.length) :
    zfill 64 d = d := by
  rw [zfill.eq_def, if_pos hlen]

/-- Claim C5: for every address payload of at most 64 hex digits, given with
or without the `0x` marker, `pad_address_to_bytes` returns exactly `0x`
followed by 64 characters (66 in total), ending with the original digits
right-aligned and preceded only by `'0'` padding. -/
theorem pad_address_to_bytes_spec (d : List Char)
    (hhex : ∀ c ∈ d, isHexChar c = true) (hlen : d.length ≤ 64) :
    (pad_address_to_bytes (String.mk d)).data
        = '0' :: 'x' :: (List.replicate (64 - d.length) '0' ++ d) ∧
    (pad_address_to_bytes (String.mk ('0' :: 'x' :: d))).data
        = '0' :: 'x' :: (List.replicate (64 - d.length) '0' ++ d) ∧
    (pad_address_to_bytes (String.mk d)).length = 66 ∧
    (pad_address_to_bytes (String.mk ('0' :: 'x' :: d))).length = 66 := by
  have hclean : replace0x d = d := replace0x_of_no_x d (hex_no_x hhex)
  have h1 : (pad_address_to_bytes (String.mk d)).data
      = '0' :: 'x' :: (List.replicate (64 - d.length) '0' ++ d) := by
    show ('0' :: 'x' :: zfill 64 (replace0x d)) = _
    rw [hclean, zfill_of_le d hhex hlen]
  have h2 : (pad_address_to_bytes (String.mk ('0' :: 'x' :: d))).data
      = '0' :: 'x' :: (List.replicate (64 - d.length) '0' ++ d) := by
    show ('0' :: 'x' :: zfill 64 (replace0x ('0' :: 'x' :: d))) = _
    rw [replace0x_marker, hclean, zfill_of_le d hhex hlen]
  refine ⟨h1, h2, ?_, ?_⟩
  · show (pad_address_to_bytes (String.mk d)).data.length = 66
    rw [h1]
    simp only [List.length_cons, List.length_append, List.length_replicate]
    omega
  · show (pad_address_to_bytes (String.mk ('0' :: 'x' :: d))).data.length = 66
    rw [h2]
    simp only [List.length_cons, List.length_append, List.length_replicate]
    omega

/-- Witness for claim C5 at the concrete payload `aB1`. -/
theorem pad_address_to_bytes_spec_witness :
    (∀ c ∈ ['a', 'B', '1'], isHexChar c = true) ∧
    (pad_address_to_bytes (String.mk ['a', 'B', '1'])).data
        = '0' :: 'x' :: (List.replicate 61 '0' ++ ['a', 'B', '1']) := by
  refine ⟨by decide, ?_⟩
  exact (pad_address_to_bytes_spec ['a', 'B', '1'] (by decide) (by decide)).1

/-- Claim C8: `pad_address_to_bytes` is idempotent on 64-hex-digit payloads:
padding the already-padded 66-character result again returns it unchanged. -/
theorem pad_address_idempotent (d : List Char)
    (hhex : ∀ c ∈ d, isHexChar c = true) (hlen : d.length = 64) :
    pad_address_to_bytes (pad_address_to_bytes (String.mk d))
      = pad_address_to_bytes (String.mk d) := by
  have hclean : replace0x d = d := replace0x_of_no_x d (hex_no_x hhex)
  have hz : zfill 64 d = d := zfill_of_ge d (by omega)
  have h1 : pad_address_to_bytes (String.mk d) = String.mk ('0' :: 'x' :: d) := by
    show String.mk ('0' :: 'x' :: zfill 64 (replace0x d)) = _
    rw [hclean, hz]
  rw [h1]
  show String.mk ('0' :: 'x' :: zfill 64 (replace0x ('0' :: 'x' :: d))) = _
  rw [replace0x_marker, hclean, hz]

/-- Witness for claim C8 at the 64-character payload `bb...b`. -/
theorem pad_address_idempotent_witness :
    pad_address_to_bytes (pad_address_to_bytes (String.mk (List.replicate 64 'b')))
      = pad_address_to_bytes (String.mk (List.replicate 64 'b')) :=
  pad_address_idempotent (List.replicate 64 'b') (by decide) (by decide)

/-- Claim C4, amended: for input whose unprefixed remainder exceeds 64
characters, the zero-fill is a no-op and the result is `0x` followed by the
remainder unchanged — the result is not truncated, and no length validation
rejects the input (the function is total and returns normally). -/
theorem pad_long_input_noop :
    (∀ s : String, 64 < (replace0x s.data).length →
      pad_address_to_bytes s = String.mk ('0' :: 'x' :: replace0x s.data)) ∧
    (∀ d : List Char, (∀ c ∈ d, isHexChar c = true) → 64 < d.length →
      pad_address_to_bytes (String.mk ('0' :: 'x' :: d)) = String.mk ('0' :: 'x' :: d) ∧
      (pad_address_to_bytes (String.mk ('0' :: 'x' :: d))).length = d.length + 2) := by
  have base : ∀ s : String, 64 < (replace0x s.data).length →
      pad_address_to_bytes s = String.mk ('0' :: 'x' :: replace0x s.data) := by
    intro s h
    show String.mk ('0' :: 'x' :: zfill 64 (replace0x s.data)) = _
    rw [zfill_of_ge _ (by omega)]
  refine ⟨base, ?_⟩
  intro d hhex hlen
  have hclean : replace0x ('0' :: 'x' :: d) = d := by
    rw [replace0x_marker, replace0x_of_no_x d (hex_no_x hhex)]
  have h1 := base (String.mk ('0' :: 'x' :: d)) (by simpa [hclean] using hlen)
  rw [hclean] at h1
  refine ⟨h1, ?_⟩
  rw [h1]
  show ('0' :: 'x' :: d).length = d.length + 2
  simp only [List.length_cons]

/-- Witness for the amended claim C4 at a 65-character payload. -/
theorem pad_long_input_noop_witness :
    pad_address_to_bytes (String.mk ('0' :: 'x' :: List.replicate 65 '1'))
      = String.mk ('0' :: 'x' :: List.replicate 65 '1') ∧
    (pad_address_to_bytes (String.mk ('0' :: 'x' :: List.replicate 65 '1'))).length = 67 :=
  have h := (pad_long_input_noop).2 (List.replicate 65 '1') (by decide) (by decide)
  ⟨h.1, h.2.trans (by decide)⟩

/-- Counterexample for claim C4 as stated: on a 65-character payload the
result keeps all 65 characters (length 67), so it is not truncated from the
left to the 64-character window. -/
theorem pad_truncation_counterexample :
    pad_address_to_bytes (String.mk ('0' :: 'x' :: List.replicate 65 'a'))
      = String.mk ('0' :: 'x' :: List.replicate 65 'a') ∧
    (pad_address_to_bytes (String.mk ('0' :: 'x' :: List.replicate 65 'a'))).length = 67 ∧
    pad_address_to_bytes (String.mk ('0' :: 'x' :: List.replicate 65 'a'))
      ≠ String.mk ('0' :: 'x' :: List.replicate 64 'a') := by
  refine ⟨by decide, by decide, by decide⟩

end TokenPools

namespace TokenPools

/-! ### Lemmas about ordered-dict assignment and the expansion -/

lemma find?_objSetFields_self (fs : List (String × Json)) (k : String) (v : Json) :
    (objSetFields fs k v).find? (fun p => p.1 = k) = some (k, v) := by
  rw [objSetFields]
  by_cases h : fs.any (fun p => decide (p.1 = k))
  · rw [if_pos h]
    induction fs with
    | nil => simp at h
    | cons p fs ih =>
      by_cases hp : p.1 = k
      · simp [List.find?_cons_of_pos, hp]
      · rw [List.map_cons, if_neg hp, List.find?_cons_of_neg _ (by simp [hp])]
        apply ih
        simpa [List.any_cons, hp] using h
  · rw [if_neg h]
    rw [List.find?_append]
    have hnone : fs.find? (fun p => decide (p.1 = k)) = none := by
      rw [List.find?_eq_none]
      intro p hp
      simp only [List.any_eq_true, not_exists, not_and] at h
      simpa using h p hp
    rw [hnone]
    simp

lemma find?_map_keyupd (fs : List (String × Json)) (k k' : String) (v : Json)
    (hk : k' ≠ k) :
    (fs.map (fun p => if p.1 = k then (k, v) else p)).find? (fun p => p.1 = k')
      = fs.find? (fun p => p.1 = k') := by
  induction fs with
  | nil => rfl
  | cons p fs ih =>
    rw [List.map_cons]
    by_cases hp : p.1 = k
    · rw [if_pos hp, List.find?_cons_of_neg _ (by simp [Ne.symm hk]),
        List.find?_cons_of_neg _ (by simp [hp, Ne.symm hk]), ih]
    · rw [if_neg hp]
      by_cases hp' : p.1 = k'
      · rw [List.find?_cons_of_pos _ (by simp [hp']),
          List.find?_cons_of_pos _ (by simp [hp'])]
      · rw [List.find?_cons_of_neg _ (by simp [hp']),
          List.find?_cons_of_neg _ (by simp [hp']), ih]

lemma find?_objSetFields_ne (fs : List (String × Json)) (k k' : String) (v : Json)
    (hk : k' ≠ k) :
    (objSetFields fs k v).find? (fun p => p.1 = k')
      = fs.find? (fun p => p.1 = k') := by
  rw [objSetFields]
  by_cases h : fs.any (fun p => decide (p.1 = k))
  · rw [if_pos h]
    exact find?_map_keyupd fs k k' v hk
  · rw [if_neg h, List.find?_append]
    have h2 : List.find? (fun p => decide (p.1 = k')) [(k, v)] = none := by
      simp [Ne.symm hk]
    rw [h2]
    simp

lemma objGet_objSet_self (fs : List (String × Json)) (k : String) (v : Json) :
    objGet (Json.obj (objSetFields fs k v)) k = some v := by
  show ((objSetFields fs k v).find? (fun p => p.1 = k)).map Prod.snd = some v
  rw [find?_objSetFields_self]
  rfl

lemma objGet_objSet_ne (fs : List (String × Json)) (k k' : String) (v : Json)
    (hk : k' ≠ k) :
    objGet (Json.obj (objSetFields fs k v)) k' = objGet (Json.obj fs) k' := by
  show ((objSetFields fs k v).find? (fun p => p.1 = k')).map Prod.snd = _
  rw [find?_objSetFields_ne fs k k' v hk]
  rfl

/-- The loop succeeds elementwise when each step returns `ok`. -/
lemma mapE_of_ok (f : α → Except PyErr β) (g : α → β)
    (h : ∀ a, f a = .ok (g a)) :
    ∀ l : List α, mapE f l = .ok (l.map g)
  | [] => rfl
  | a :: as => by
    rw [mapE, h a, mapE_of_ok f g h as]
    rfl

/-- Running `update_tx_builder` on a dict whose `transactions` entry is a
non-empty list headed by a dict: the full output document. -/
lemma update_tx_builder_obj (fs tfs : List (String × Json)) (rest : List Json)
    (m : List (String × String))
    (htxs : objGet (Json.obj fs) "transactions"
      = some (Json.arr (Json.obj tfs :: rest))) :
    update_tx_builder (Json.obj fs) m
      = .ok (Json.obj (objSetFields fs "transactions" (Json.arr (m.map (fun p =>
          Json.obj (objSetFields tfs "contractInputsValues" (mkCIV p.1 p.2))))))) := by
  have htxs' : (fs.find? (fun p => p.1 = "transactions")).map Prod.snd
      = some (Json.arr (Json.obj tfs :: rest)) := htxs
  cases hfind : fs.find? (fun p => p.1 = "transactions") with
  | none =>
    rw [hfind] at htxs'
    exact absurd htxs' (by simp)
  | some pr =>
    rw [hfind] at htxs'
    have hsnd : pr.2 = Json.arr (Json.obj tfs :: rest) := by simpa using htxs'
    have hget : getItem (Json.obj fs) "transactions"
        = .ok (Json.arr (Json.obj tfs :: rest)) := by
      show (match fs.find? (fun p => p.1 = "transactions") with
        | some p => Except.ok p.2
        | none => Except.error PyErr.keyError) = _
      rw [hfind]
      show Except.ok pr.2 = _
      rw [hsnd]
    simp only [update_tx_builder, hget, index0, setItem]
    rw [mapE_of_ok _ (fun p : String × String =>
      Json.obj (objSetFields tfs "contractInputsValues" (mkCIV p.1 p.2))) (fun _ => rfl)]

/-- The transaction list of a document whose `transactions` entry was just
assigned. -/
lemma txsOf_objSet (fs : List (String × Json)) (l : List Json) :
    txsOf (Json.obj (objSetFields fs "transactions" (Json.arr l))) = l := by
  rw [txsOf]
  rw [find?_objSetFields_self]

lemma civField_set (tfs : List (String × Json)) (v : Json) (k : String) :
    civField (Json.obj (objSetFields tfs "contractInputsValues" v)) k
      = objGet v k := by
  unfold civField
  rw [objGet_objSet_self]

/-- Claim C1: for every mapping, expanding the base document succeeds, the
output's transaction list is in one-to-one positional correspondence with
the mapping, each transaction's `remoteChainSelector` is the mapping key
unmodified, and its `remotePoolAddress` is `pad_address_to_bytes` of the
mapping value. -/
theorem update_tx_builder_fields_from_mapping (m : List (String × String)) :
    ∃ doc, update_tx_builder tx_builder_template m = Except.ok doc ∧
      (txsOf doc).length = m.length ∧
      ∀ i : Nat,
        ((txsOf doc)[i]?).map (fun tx => civField tx "remoteChainSelector")
          = (m[i]?).map (fun p => some (Json.str p.1)) ∧
        ((txsOf doc)[i]?).map (fun tx => civField tx "remotePoolAddress")
          = (m[i]?).map (fun p => some (Json.str (pad_address_to_bytes p.2))) := by
  have hrun : update_tx_builder tx_builder_template m
      = .ok (Json.obj (objSetFields tb_fields "transactions" (Json.arr (m.map (fun p =>
          Json.obj (objSetFields tx_template0_fields "contractInputsValues"
            (mkCIV p.1 p.2))))))) :=
    update_tx_builder_obj tb_fields tx_template0_fields [] m rfl
  refine ⟨_, hrun, ?_, ?_⟩
  · rw [txsOf_objSet]
    simp
  · intro i
    rw [txsOf_objSet, List.getElem?_map]
    cases m[i]? with
    | none => exact ⟨rfl, rfl⟩
    | some p =>
      constructor
      · show some (civField (Json.obj (objSetFields tx_template0_fields
          "contractInputsValues" (mkCIV p.1 p.2))) "remoteChainSelector") = _
        rw [civField_set]
        rfl
      · show some (civField (Json.obj (objSetFields tx_template0_fields
          "contractInputsValues" (mkCIV p.1 p.2))) "remotePoolAddress") = _
        rw [civField_set]
        rfl

/-- Claim C2: for every mapping, expanding the base document succeeds (never
raises) and the output's transaction count equals the mapping's entry count;
the empty mapping yields the empty transaction list as the instance `m = []`. -/
theorem update_tx_builder_count (m : List (String × String)) :
    ∃ doc, update_tx_builder tx_builder_template m = Except.ok doc ∧
      (txsOf doc).length = m.length := by
  refine ⟨_, update_tx_builder_obj tb_fields tx_template0_fields [] m rfl, ?_⟩
  rw [txsOf_objSet]
  simp

/-- Claim C7, amended: each output transaction is a duplicate of the
template transaction in which every field other than `contractInputsValues`
is copied verbatim, while `contractInputsValues` is replaced wholesale by a
fresh object holding exactly the two keys (`remoteChainSelector` = mapping
key, `remotePoolAddress` = padded mapping value); keys previously inside
`contractInputsValues` are not preserved. -/
theorem update_tx_builder_tx_shape (fs tfs : List (String × Json))
    (rest : List Json) (m : List (String × String))
    (htxs : objGet (Json.obj fs) "transactions"
      = some (Json.arr (Json.obj tfs :: rest))) :
    ∃ doc, update_tx_builder (Json.obj fs) m = Except.ok doc ∧
      (txsOf doc).length = m.length ∧
      ∀ (i : Nat) (sel pool : String), m[i]? = some (sel, pool) →
        ∃ tx, (txsOf doc)[i]? = some tx ∧
          (∀ k, k ≠ "contractInputsValues" → objGet tx k = objGet (Json.obj tfs) k) ∧
          objGet tx "contractInputsValues" = some (mkCIV sel pool) := by
  refine ⟨_, update_tx_builder_obj fs tfs rest m htxs, ?_, ?_⟩
  · rw [txsOf_objSet]
    simp
  · intro i sel pool hi
    rw [txsOf_objSet, List.getElem?_map, hi]
    refine ⟨_, rfl, ?_, ?_⟩
    · intro k hk
      exact objGet_objSet_ne tfs "contractInputsValues" k _ hk
    · exact objGet_objSet_self tfs "contractInputsValues" _

/-- Witness for the amended claim C7 on the probe document. -/
theorem update_tx_builder_tx_shape_witness :
    ∃ doc, update_tx_builder template_extra [("1", "0xab")] = Except.ok doc ∧
      (txsOf doc).length = [("1", "0xab")].length ∧
      ∀ (i : Nat) (sel pool : String), [("1", "0xab")][i]? = some (sel, pool) →
        ∃ tx, (txsOf doc)[i]? = some tx ∧
          (∀ k, k ≠ "contractInputsValues" →
            objGet tx k = objGet (Json.obj tx_extra_fields) k) ∧
          objGet tx "contractInputsValues" = some (mkCIV sel pool) :=
  update_tx_builder_tx_shape template_extra_fields tx_extra_fields [] [("1", "0xab")] rfl

/-- Counterexample for claim C7 as stated: the probe document's template
transaction holds a third `contractInputsValues` key `extraKey`, and after
expansion that key is gone — it is not copied verbatim into the output. -/
theorem update_civ_extra_key_counterexample :
    (txsOf doc_extra).length = 1 ∧
    extra_key_out = none ∧
    extra_key_out ≠ some "keepme" := by
  exact ⟨by decide, by decide, by decide⟩

lemma setItem_error (j : Json) (k : String) (v : Json) (e : PyErr)
    (h : setItem j k v = .error e) : e = .typeError := by
  cases j <;> simp [setItem] at h <;> exact h.symm

lemma mapE_error_typeError (tx0 : Json) (l : List (String × String)) (e : PyErr)
    (h : mapE (fun p => setItem tx0 "contractInputsValues" (mkCIV p.1 p.2)) l
      = .error e) : e = .typeError := by
  induction l with
  | nil =>
    rw [mapE] at h
    cases h
  | cons a as ih =>
    rw [mapE] at h
    cases htx : setItem tx0 "contractInputsValues" (mkCIV a.1 a.2) with
    | error e' =>
      rw [htx] at h
      have he : e' = e := by injection h
      subst he
      exact setItem_error _ _ _ _ htx
    | ok b =>
      rw [htx] at h
      cases hm : mapE (fun p => setItem tx0 "contractInputsValues" (mkCIV p.1 p.2)) as with
      | error e2 =>
        rw [hm] at h
        have he : e2 = e := by injection h
        subst he
        exact ih hm
      | ok bs =>
        rw [hm] at h
        cases h

/-- Claim C10: `update_tx_builder` indexes `template['transactions'][0]`
before looping, so a base document whose transaction list is empty makes the
call fail with `IndexError` for every mapping (the empty one included), and
a non-empty transaction list rules that indexing error out. -/
theorem update_tx_builder_index_zero (template : Json) (m : List (String × String)) :
    (objGet template "transactions" = some (Json.arr []) →
      update_tx_builder template m = Except.error PyErr.indexError) ∧
    (∀ tx0 rest, objGet template "transactions" = some (Json.arr (tx0 :: rest)) →
      update_tx_builder template m ≠ Except.error PyErr.indexError) := by
  constructor
  · intro h
    match template, h with
    | Json.obj fs, h =>
      have htxs' : (fs.find? (fun p => p.1 = "transactions")).map Prod.snd
          = some (Json.arr []) := h
      cases hfind : fs.find? (fun p => p.1 = "transactions") with
      | none =>
        rw [hfind] at htxs'
        exact absurd htxs' (by simp)
      | some pr =>
        rw [hfind] at htxs'
        have hsnd : pr.2 = Json.arr [] := by simpa using htxs'
        have hget : getItem (Json.obj fs) "transactions" = .ok (Json.arr []) := by
          show (match fs.find? (fun p => p.1 = "transactions") with
            | some p => Except.ok p.2
            | none => Except.error PyErr.keyError) = _
          rw [hfind]
          show Except.ok pr.2 = _
          rw [hsnd]
        simp only [update_tx_builder, hget, index0]
  · intro tx0 rest h
    match template, h with
    | Json.obj fs, h =>
      have htxs' : (fs.find? (fun p => p.1 = "transactions")).map Prod.snd
          = some (Json.arr (tx0 :: rest)) := h
      cases hfind : fs.find? (fun p => p.1 = "transactions") with
      | none =>
        rw [hfind] at htxs'
        exact absurd htxs' (by simp)
      | some pr =>
        rw [hfind] at htxs'
        have hsnd : pr.2 = Json.arr (tx0 :: rest) := by simpa using htxs'
        have hget : getItem (Json.obj fs) "transactions"
            = .ok (Json.arr (tx0 :: rest)) := by
          show (match fs.find? (fun p => p.1 = "transactions") with
            | some p => Except.ok p.2
            | none => Except.error PyErr.keyError) = _
          rw [hfind]
          show Except.ok pr.2 = _
          rw [hsnd]
        simp only [update_tx_builder, hget, index0]
        cases hm : mapE (fun p => setItem tx0 "contractInputsValues" (mkCIV p.1 p.2)) m with
        | error e =>
          have he : e = PyErr.typeError := mapE_error_typeError tx0 m e hm
          subst he
          intro hc
          injection hc with hc2
          exact absurd hc2 (by decide)
        | ok l =>
          show setItem (Json.obj fs) "transactions" (Json.arr l) ≠ _
          intro hc
          cases hc

/-- Witness for claim C10: a document with an empty transaction list fails
with `IndexError` on the empty mapping, while the base document does not. -/
theorem update_tx_builder_index_zero_witness :
    update_tx_builder (Json.obj [("transactions", Json.arr [])]) []
      = Except.error PyErr.indexError ∧
    update_tx_builder tx_builder_template [] ≠ Except.error PyErr.indexError :=
  ⟨(update_tx_builder_index_zero (Json.obj [("transactions", Json.arr [])]) []).1 rfl,
   (update_tx_builder_index_zero tx_builder_template []).2 tx_template0 [] rfl⟩

/-- Counterexample for claim C3 as stated: the scenario's output
`remotePoolAddress` keeps the input's mixed-case hex digits, so it differs
from the lowercased 66-character string the claim specifies. -/
theorem connect_arb_lowercase_counterexample :
    arb_pool_out
      = some "0x0000000000000000000000006f93AD7963BBdD8C655A0C819B9b79347EE04b70" ∧
    arb_pool_out
      ≠ some "0x0000000000000000000000006f93ad7963bbdd8c655a0c819b9b79347ee04b70" := by
  exact ⟨by decide, by decide⟩

/-- Claim C3, amended: for the single-entry mapping of the AVAX-connect
operation and the standard base document, the output holds exactly one
transaction, its `remoteChainSelector` is `"4949039107694359620"`, and its
`remotePoolAddress` is the padded address with the input's hex-digit case
preserved (only padding added). -/
theorem connect_arb_scenario :
    (txsOf doc_arb).length = 1 ∧
    arb_selector_out = some "4949039107694359620" ∧
    arb_pool_out
      = some "0x0000000000000000000000006f93AD7963BBdD8C655A0C819B9b79347EE04b70" := by
  exact ⟨by decide, by decide, by decide⟩

/-- Claim C9: `main` catches every exception raised during expansion or file
writing at its outermost handler, prints the error description to standard
output, and exits with code 1; a run is total — its only outputs are the
printed lines, the exit code and the written file, so no failure escapes in
any other form, and the success path exits with code 0. -/
theorem main_catches_exceptions :
    (∀ msg, main_run (Except.error msg)
      = ⟨[OutLine.runningLine, OutLine.errorLine ("Error occurred: " ++ msg)], 1, none⟩) ∧
    update_tx_builder tx_builder_template selector_to_pool = Except.ok docMain ∧
    main_run (Except.ok ())
      = ⟨[OutLine.runningLine, OutLine.dumpLine docMain,
          OutLine.successLine "updated_tx_builder.json"], 0, some docMain⟩ := by
  exact ⟨fun msg => rfl, rfl, rfl⟩

end TokenPools

namespace TokenPools

/-! ### Store lemmas for the mutation claim -/

lemma refIn_ref {lo hi a : Nat} : RefIn lo hi (.ref a) ↔ lo ≤ a ∧ a < hi :=
  Iff.rfl

lemma refIn_atom {lo hi : Nat} {v : Atom} : RefIn lo hi (.atom v) := trivial

lemma childrenIn_arr {lo hi : Nat} {es : List HRef} :
    HValChildrenIn lo hi (.arrH es) ↔ ∀ r ∈ es, RefIn lo hi r := Iff.rfl

lemma childrenIn_obj {lo hi : Nat} {fs : List (String × HRef)} :
    HValChildrenIn lo hi (.objH fs) ↔ ∀ p ∈ fs, RefIn lo hi p.2 := Iff.rfl

lemma getElem?_some_lt {s : Store} {a : Nat} {v : HVal} (h : s[a]? = some v) :
    a < s.length := by
  rcases List.getElem?_eq_some_iff.mp h with ⟨h1, -⟩
  exact h1

lemma extBelow_refl (n : Nat) (s : Store) : extBelow n s s := fun _ _ => rfl

lemma extBelow_comp {n : Nat} {s s' s'' : Store}
    (h1 : extBelow n s s') (h2 : extBelow n s' s'') : extBelow n s s'' :=
  fun i hi => (h2 i hi).trans (h1 i hi)

lemma extBelow_append (n : Nat) (s t : Store) (hn : n ≤ s.length) :
    extBelow n s (s ++ t) := by
  intro i hi
  exact List.getElem?_append_left (by omega)

lemma extBelow_set (n : Nat) (s : Store) (b : Nat) (v : HVal) (hb : n ≤ b) :
    extBelow n s (s.set b v) := by
  intro i hi
  exact List.getElem?_set_ne (by omega)

lemma refIn_mono {lo hi hi' : Nat} {r : HRef} (h : RefIn lo hi r) (hh : hi ≤ hi') :
    RefIn lo hi' r := by
  cases r with
  | atom v => trivial
  | ref a =>
    rw [refIn_ref] at h ⊢
    omega

lemma childrenIn_mono {lo hi hi' : Nat} {v : HVal} (h : HValChildrenIn lo hi v)
    (hh : hi ≤ hi') : HValChildrenIn lo hi' v := by
  cases v with
  | arrH es =>
    rw [childrenIn_arr] at h ⊢
    exact fun r hr => refIn_mono (h r hr) hh
  | objH fs =>
    rw [childrenIn_obj] at h ⊢
    exact fun p hp => refIn_mono (h p hp) hh

lemma newRegionOK_init (s : Store) : NewRegionOK s.length s := by
  intro a v ha hv
  have := getElem?_some_lt hv
  omega

lemma newRegionOK_append {lo : Nat} {s : Store} {v : HVal}
    (h : NewRegionOK lo s) (hv : HValChildrenIn lo (s.length + 1) v) :
    NewRegionOK lo (s ++ [v]) := by
  intro a w ha hw
  have halen : a < s.length + 1 := by
    have := getElem?_some_lt hw
    simpa using this
  have hlen : (s ++ [v]).length = s.length + 1 := by simp
  rw [hlen]
  by_cases hlt : a < s.length
  · rw [List.getElem?_append_left hlt] at hw
    exact childrenIn_mono (h a w ha hw) (by omega)
  · have ha' : a = s.length := by omega
    subst ha'
    rw [List.getElem?_concat_length] at hw
    cases hw
    exact hv

lemma newRegionOK_set {lo : Nat} {s : Store} {b : Nat} {v : HVal}
    (h : NewRegionOK lo s) (hb : b < s.length)
    (hv : HValChildrenIn lo s.length v) :
    NewRegionOK lo (s.set b v) := by
  intro a w ha hw
  rw [List.length_set]
  by_cases hab : a = b
  · subst hab
    rw [List.getElem?_set_self hb] at hw
    cases hw
    exact hv
  · rw [List.getElem?_set_ne (fun hc => hab hc.symm)] at hw
    exact h a w ha hw

end TokenPools

namespace TokenPools

/-- The joint extension/freshness/closure property of a copier. -/
def CopyOK (cp : Store → HRef → Option (Store × HRef)) : Prop :=
  ∀ (lo : Nat) (s : Store) (r : HRef) (s' : Store) (r' : HRef),
    cp s r = some (s', r') → lo ≤ s.length →
    s.length ≤ s'.length ∧ extBelow lo s s' ∧ RefIn lo s'.length r' ∧
    (NewRegionOK lo s → NewRegionOK lo s')

lemma deepcopyRefs_ok {cp : Store → HRef → Option (Store × HRef)} (hcp : CopyOK cp) :
    ∀ (rs : List HRef) (lo : Nat) (s s' : Store) (rs' : List HRef),
      deepcopyRefs cp s rs = some (s', rs') → lo ≤ s.length →
      s.length ≤ s'.length ∧ extBelow lo s s' ∧ (∀ r ∈ rs', RefIn lo s'.length r) ∧
      (NewRegionOK lo s → NewRegionOK lo s')
  | [], lo, s, s', rs', h, hlo => by
    rw [deepcopyRefs] at h
    injection h with h1
    injection h1 with h2 h3
    subst h2; subst h3
    exact ⟨le_refl _, extBelow_refl _ _, by simp, fun hr => hr⟩
  | r :: rs, lo, s, s', rs', h, hlo => by
    rw [deepcopyRefs] at h
    split at h
    · cases h
    · rename_i s1 r1 h1
      split at h
      · cases h
      · rename_i s2 rs2 h2
        injection h with h3
        injection h3 with h4 h5
        subst h4; subst h5
        obtain ⟨hl1, he1, hr1, hg1⟩ := hcp lo s r s1 r1 h1 hlo
        obtain ⟨hl2, he2, hr2, hg2⟩ :=
          deepcopyRefs_ok hcp rs lo s1 s2 rs2 h2 (by omega)
        refine ⟨by omega, extBelow_comp he1 he2, ?_, fun hr => hg2 (hg1 hr)⟩
        intro x hx
        rcases List.mem_cons.mp hx with hx1 | hx1
        · subst hx1
          exact refIn_mono hr1 hl2
        · exact hr2 x hx1

lemma deepcopyFields_ok {cp : Store → HRef → Option (Store × HRef)} (hcp : CopyOK cp) :
    ∀ (fs : List (String × HRef)) (lo : Nat) (s s' : Store) (fs' : List (String × HRef)),
      deepcopyFields cp s fs = some (s', fs') → lo ≤ s.length →
      s.length ≤ s'.length ∧ extBelow lo s s' ∧ (∀ p ∈ fs', RefIn lo s'.length p.2) ∧
      (NewRegionOK lo s → NewRegionOK lo s')
  | [], lo, s, s', fs', h, hlo => by
    rw [deepcopyFields] at h
    injection h with h1
    injection h1 with h2 h3
    subst h2; subst h3
    exact ⟨le_refl _, extBelow_refl _ _, by simp, fun hr => hr⟩
  | (k, r) :: fs, lo, s, s', fs', h, hlo => by
    rw [deepcopyFields] at h
    split at h
    · cases h
    · rename_i s1 r1 h1
      split at h
      · cases h
      · rename_i s2 fs2 h2
        injection h with h3
        injection h3 with h4 h5
        subst h4; subst h5
        obtain ⟨hl1, he1, hr1, hg1⟩ := hcp lo s r s1 r1 h1 hlo
        obtain ⟨hl2, he2, hr2, hg2⟩ :=
          deepcopyFields_ok hcp fs lo s1 s2 fs2 h2 (by omega)
        refine ⟨by omega, extBelow_comp he1 he2, ?_, fun hr => hg2 (hg1 hr)⟩
        intro p hp
        rcases List.mem_cons.mp hp with hp1 | hp1
        · subst hp1
          exact refIn_mono hr1 hl2
        · exact hr2 p hp1

lemma deepcopyRef_ok : ∀ fuel : Nat, CopyOK (deepcopyRef fuel) := by
  intro fuel
  induction fuel with
  | zero =>
    intro lo s r s' r' h hlo
    cases r with
    | atom v =>
      injection h with h1
      injection h1 with h2 h3
      subst h2; subst h3
      exact ⟨le_refl _, extBelow_refl _ _, refIn_atom, fun hr => hr⟩
    | ref a => cases h
  | succ fuel ih =>
    intro lo s r s' r' h hlo
    cases r with
    | atom v =>
      injection h with h1
      injection h1 with h2 h3
      subst h2; subst h3
      exact ⟨le_refl _, extBelow_refl _ _, refIn_atom, fun hr => hr⟩
    | ref a =>
      rw [deepcopyRef] at h
      split at h
      · cases h
      · rename_i es h1
        split at h
        · cases h
        · rename_i s1 es1 h2
          injection h with h3
          injection h3 with h4 h5
          subst h4; subst h5
          obtain ⟨hl1, he1, hr1, hg1⟩ := deepcopyRefs_ok ih es lo s s1 es1 h2 hlo
          have hlen : (s1 ++ [HVal.arrH es1]).length = s1.length + 1 := by simp
          refine ⟨?_, ?_, ?_, ?_⟩
          · rw [hlen]; omega
          · exact extBelow_comp he1 (extBelow_append lo s1 _ (by omega))
          · rw [refIn_ref, hlen]
            omega
          · intro hr
            exact newRegionOK_append (hg1 hr)
              (fun x hx => refIn_mono (hr1 x hx) (by omega))
      · rename_i fsn h1
        split at h
        · cases h
        · rename_i s1 fs1 h2
          injection h with h3
          injection h3 with h4 h5
          subst h4; subst h5
          obtain ⟨hl1, he1, hr1, hg1⟩ := deepcopyFields_ok ih fsn lo s s1 fs1 h2 hlo
          have hlen : (s1 ++ [HVal.objH fs1]).length = s1.length + 1 := by simp
          refine ⟨?_, ?_, ?_, ?_⟩
          · rw [hlen]; omega
          · exact extBelow_comp he1 (extBelow_append lo s1 _ (by omega))
          · rw [refIn_ref, hlen]
            omega
          · intro hr
            exact newRegionOK_append (hg1 hr)
              (fun p hp => refIn_mono (hr1 p hp) (by omega))

end TokenPools

namespace TokenPools

lemma childrenIn_objSetFieldsH {lo hi : Nat} {fs : List (String × HRef)}
    {k : String} {v : HRef}
    (hfs : ∀ p ∈ fs, RefIn lo hi p.2) (hv : RefIn lo hi v) :
    ∀ p ∈ objSetFieldsH fs k v, RefIn lo hi p.2 := by
  intro p hp
  rw [objSetFieldsH] at hp
  split at hp
  · rcases List.mem_map.mp hp with ⟨q, hq, hpq⟩
    by_cases hqk : q.1 = k
    · rw [if_pos hqk] at hpq
      rw [← hpq]
      exact hv
    · rw [if_neg hqk] at hpq
      rw [← hpq]
      exact hfs q hq
  · rcases List.mem_append.mp hp with hp1 | hp1
    · exact hfs p hp1
    · have : p = (k, v) := by simpa using hp1
      rw [this]
      exact hv

lemma setItemH_some {s : Store} {b : Nat} {k : String} {v : HRef} {s2 : Store}
    (h : setItemH s b k v = some s2) :
    ∃ gs, s[b]? = some (.objH gs)
      ∧ s2 = s.set b (.objH (objSetFieldsH gs k v)) := by
  rw [setItemH] at h
  split at h
  · rename_i gs hget
    injection h with h1
    exact ⟨gs, hget, h1.symm⟩
  · cases h

lemma setItemRef_some {s : Store} {r : HRef} {k : String} {v : HRef} {s2 : Store}
    (h : setItemRef s r k v = some s2) :
    ∃ b gs, r = .ref b ∧ s[b]? = some (.objH gs)
      ∧ s2 = s.set b (.objH (objSetFieldsH gs k v)) := by
  cases r with
  | atom w => cases h
  | ref b =>
    obtain ⟨gs, h1, h2⟩ := setItemH_some h
    exact ⟨b, gs, rfl, h1, h2⟩

lemma buildTxs_ok (fuel : Nat) :
    ∀ (m : List (String × String)) (lo : Nat) (s : Store) (txT : HRef)
      (s' : Store) (outs : List HRef),
      buildTxs fuel s txT m = some (s', outs) → lo ≤ s.length →
      s.length ≤ s'.length ∧ extBelow lo s s' ∧
      (∀ r ∈ outs, RefIn lo s'.length r) ∧
      (NewRegionOK lo s → NewRegionOK lo s')
  | [], lo, s, txT, s', outs, h, hlo => by
    rw [buildTxs] at h
    injection h with h1
    injection h1 with h2 h3
    subst h2; subst h3
    exact ⟨le_refl _, extBelow_refl _ _, by simp, fun hr => hr⟩
  | (selector, pool_address) :: rest, lo, s, txT, s', outs, h, hlo => by
    rw [buildTxs] at h
    split at h
    · cases h
    · rename_i s1 new_tx h1
      split at h
      · cases h
      · rename_i s2 hset
        split at h
        · cases h
        · rename_i s3 txs h3
          injection h with h4
          injection h4 with h5 h6
          subst h5; subst h6
          obtain ⟨hl1, he1, hr1, hg1⟩ := deepcopyRef_ok fuel lo s txT s1 new_tx h1 hlo
          obtain ⟨b, gs, hb, hget, hs2⟩ := setItemRef_some hset
          subst hb
          rw [refIn_ref] at hr1
          have hgetlt : b < (s1 ++ [civOf selector pool_address]).length :=
            getElem?_some_lt hget
          have hl12 : (s1 ++ [civOf selector pool_address]).length = s1.length + 1 := by
            simp
          have hl2 : s2.length = s1.length + 1 := by
            rw [hs2, List.length_set, hl12]
          obtain ⟨hl3, he3, hr3, hg3⟩ :=
            buildTxs_ok fuel rest lo s2 txT s3 txs h3 (by omega)
          have he12 : extBelow lo s s2 := by
            have ha : extBelow lo s1 (s1 ++ [civOf selector pool_address]) :=
              extBelow_append lo s1 _ (by omega)
            have hb2 : extBelow lo (s1 ++ [civOf selector pool_address]) s2 := by
              rw [hs2]
              exact extBelow_set lo _ b _ (by omega)
            exact extBelow_comp he1 (extBelow_comp ha hb2)
          refine ⟨by omega, extBelow_comp he12 he3, ?_, ?_⟩
          · intro x hx
            rcases List.mem_cons.mp hx with hx1 | hx1
            · subst hx1
              rw [refIn_ref]
              omega
            · exact hr3 x hx1
          · intro hr
            apply hg3
            have hg1' : NewRegionOK lo (s1 ++ [civOf selector pool_address]) := by
              apply newRegionOK_append (hg1 hr)
              intro p hp
              simp [civOf] at hp
              rcases hp with hp1 | hp1 <;> (rw [hp1]; exact refIn_atom)
            rw [hs2]
            apply newRegionOK_set hg1' (by omega)
            have hnode := hg1' b (.objH gs) (by omega) hget
            rw [childrenIn_obj] at hnode
            rw [hl12] at hnode
            have : ∀ p ∈ objSetFieldsH gs "contractInputsValues"
                (HRef.ref s1.length), RefIn lo (s1.length + 1) p.2 := by
              apply childrenIn_objSetFieldsH hnode
              rw [refIn_ref]
              omega
            rw [childrenIn_obj, hl12]
            exact this

end TokenPools

namespace TokenPools

lemma childAddr_arr {es : List HRef} {b : Nat} :
    childAddr (.arrH es) b ↔ HRef.ref b ∈ es := Iff.rfl

lemma childAddr_obj {fs : List (String × HRef)} {b : Nat} :
    childAddr (.objH fs) b ↔ ∃ k, (k, HRef.ref b) ∈ fs := Iff.rfl

/-- In a closed fresh region, reachability stays inside the region. -/
lemma reach_in_region {lo : Nat} {s : Store} (hreg : NewRegionOK lo s)
    {a b : Nat} (hr : ReachH s a b) (h1 : lo ≤ a) (h2 : a < s.length) :
    lo ≤ b ∧ b < s.length := by
  induction hr with
  | refl a => exact ⟨h1, h2⟩
  | step a c b' v hget hchild hrr ih =>
    have hch := hreg a v h1 hget
    cases v with
    | arrH es =>
      rw [childAddr_arr] at hchild
      rw [childrenIn_arr] at hch
      have := hch _ hchild
      rw [refIn_ref] at this
      exact ih this.1 this.2
    | objH fs =>
      rw [childAddr_obj] at hchild
      obtain ⟨k, hk⟩ := hchild
      rw [childrenIn_obj] at hch
      have := hch _ hk
      rw [refIn_ref] at this
      exact ih this.1 this.2

lemma readRefs_mono {rd rd' : HRef → Option Json}
    (h : ∀ r j, rd r = some j → rd' r = some j) :
    ∀ (rs : List HRef) (js : List Json),
      readRefs rd rs = some js → readRefs rd' rs = some js
  | [], js, hh => hh
  | r :: rs, js, hh => by
    rw [readRefs] at hh ⊢
    split at hh
    · cases hh
    · rename_i j hj
      rw [h r j hj]
      cases hrs : readRefs rd rs with
      | none => rw [hrs] at hh; cases hh
      | some js' =>
        rw [hrs] at hh
        show (readRefs rd' rs).map (fun l => j :: l) = some js
        rw [readRefs_mono h rs js' hrs]
        exact hh

lemma readFields_mono {rd rd' : HRef → Option Json}
    (h : ∀ r j, rd r = some j → rd' r = some j) :
    ∀ (fs : List (String × HRef)) (js : List (String × Json)),
      readFields rd fs = some js → readFields rd' fs = some js
  | [], js, hh => hh
  | (k, r) :: fs, js, hh => by
    rw [readFields] at hh ⊢
    split at hh
    · cases hh
    · rename_i j hj
      rw [h r j hj]
      cases hfs : readFields rd fs with
      | none => rw [hfs] at hh; cases hh
      | some js' =>
        rw [hfs] at hh
        show (readFields rd' fs).map (fun l => (k, j) :: l) = some js
        rw [readFields_mono h fs js' hfs]
        exact hh

/-- Reading a document only depends on the store below the addresses it
visits, so a store extension preserves every successful read. -/
lemma readRef_stable : ∀ (g : Nat) (s s' : Store), extBelow s.length s s' →
    ∀ (r : HRef) (j : Json), readRef g s r = some j → readRef g s' r = some j := by
  intro g
  induction g with
  | zero =>
    intro s s' hext r j h
    cases r with
    | atom v => exact h
    | ref a => cases h
  | succ g ih =>
    intro s s' hext r j h
    cases r with
    | atom v => exact h
    | ref a =>
      rw [readRef] at h ⊢
      split at h
      · cases h
      · rename_i es hget
        have ha : a < s.length := getElem?_some_lt hget
        rw [hext a ha, hget]
        cases hrs : readRefs (readRef g s) es with
        | none => rw [hrs] at h; cases h
        | some js =>
          rw [hrs] at h
          show (readRefs (readRef g s') es).map Json.arr = some j
          rw [readRefs_mono (fun r j hj => ih s s' hext r j hj) es js hrs]
          exact h
      · rename_i fsn hget
        have ha : a < s.length := getElem?_some_lt hget
        rw [hext a ha, hget]
        cases hfs : readFields (readRef g s) fsn with
        | none => rw [hfs] at h; cases h
        | some js =>
          rw [hfs] at h
          show (readFields (readRef g s') fsn).map Json.obj = some j
          rw [readFields_mono (fun r j hj => ih s s' hext r j hj) fsn js hfs]
          exact h

end TokenPools

namespace TokenPools

/-- Claim C6: `update_tx_builder` never mutates the base document passed to
it.  On the store model, a successful run returns a store in which every
read of the base document's content gives the same value as before the
call, and every address reachable from the returned document is a fresh
one, so overwriting any such address (mutating the returned document in an
arbitrary way) still leaves the base document's content unchanged — all
copied parts are independent copies. -/
theorem update_tx_builder_heap_no_mutation
    (fuel g : Nat) (s : Store) (template : Nat) (m : List (String × String))
    (s5 : Store) (r : Nat) (j : Json)
    (hrun : update_tx_builder_heap fuel s template m = some (s5, r))
    (hread : readRef g s (.ref template) = some j) :
    readRef g s5 (.ref template) = some j ∧
    ∀ b v, ReachH s5 r b → readRef g (s5.set b v) (.ref template) = some j := by
  rw [update_tx_builder_heap] at hrun
  split at hrun
  · rename_i s1 updatedT h1
    split at hrun
    · rename_i txs_a h2
      split at hrun
      · rename_i tx0 rest h3
        split at hrun
        · cases hrun
        · rename_i s2 txT h4
          split at hrun
          · cases hrun
          · rename_i s3 newTxs h5
            split at hrun
            · cases hrun
            · rename_i s5' h6
              injection hrun with hrun1
              injection hrun1 with hrun2 hrun3
              subst hrun2
              subst hrun3
              -- phase A: deepcopy of the whole template
              obtain ⟨hl1, he1, hr1, hg1⟩ :=
                deepcopyRef_ok fuel s.length s (.ref template) s1 (.ref updatedT) h1
                  (le_refl _)
              rw [refIn_ref] at hr1
              have reg1 : NewRegionOK s.length s1 := hg1 (newRegionOK_init s)
              -- phase B: deepcopy of the template transaction
              obtain ⟨hl2, he2, hr2, hg2⟩ :=
                deepcopyRef_ok fuel s.length s1 tx0 s2 txT h4 (by omega)
              have reg2 : NewRegionOK s.length s2 := hg2 reg1
              -- phase C: the loop
              obtain ⟨hl3, he3, hr3, hg3⟩ :=
                buildTxs_ok fuel m s.length s2 txT s3 newTxs h5 (by omega)
              have reg3 : NewRegionOK s.length s3 := hg3 reg2
              -- phase D: allocation of the new transaction list
              have he4 : extBelow s.length s3 (s3 ++ [HVal.arrH newTxs]) :=
                extBelow_append s.length s3 _ (by omega)
              have hl4 : (s3 ++ [HVal.arrH newTxs]).length = s3.length + 1 := by
                simp
              have reg4 : NewRegionOK s.length (s3 ++ [HVal.arrH newTxs]) := by
                apply newRegionOK_append reg3
                rw [childrenIn_arr]
                intro x hx
                exact refIn_mono (hr3 x hx) (by omega)
              -- phase E: the final assignment into the copied template
              obtain ⟨gs, hget4, hs5⟩ := setItemH_some h6
              have hrlt : updatedT < (s3 ++ [HVal.arrH newTxs]).length :=
                getElem?_some_lt hget4
              have he5 : extBelow s.length (s3 ++ [HVal.arrH newTxs]) s5' := by
                rw [hs5]
                exact extBelow_set s.length _ updatedT _ (by omega)
              have reg5 : NewRegionOK s.length s5' := by
                rw [hs5]
                apply newRegionOK_set reg4 hrlt
                have hnode := reg4 updatedT (.objH gs) (by omega) hget4
                rw [childrenIn_obj] at hnode
                rw [childrenIn_obj]
                apply childrenIn_objSetFieldsH hnode
                rw [refIn_ref]
                omega
              have hlen5 : s5'.length = (s3 ++ [HVal.arrH newTxs]).length := by
                rw [hs5, List.length_set]
              -- the combined extension
              have heAll : extBelow s.length s s5' :=
                extBelow_comp he1 (extBelow_comp he2 (extBelow_comp he3
                  (extBelow_comp he4 he5)))
              constructor
              · exact readRef_stable g s s5' heAll (.ref template) j hread
              · intro b v hreach
                have hb : s.length ≤ b ∧ b < s5'.length :=
                  reach_in_region reg5 hreach (by omega) (by omega)
                have hext2 : extBelow s.length s (s5'.set b v) :=
                  extBelow_comp heAll (extBelow_set s.length s5' b v (by omega))
                exact readRef_stable g s (s5'.set b v) hext2 (.ref template) j hread
      · cases hrun
    · cases hrun
  · cases hrun

end TokenPools

namespace TokenPools

/-- Witness for claim C6 on a concrete four-node store: the base document
reads back unchanged after the run, and even after overwriting the returned
document's root node the base document still reads back unchanged. -/
theorem update_tx_builder_heap_no_mutation_witness :
    readRef 10 W1.1 (HRef.ref 3) = some WJ ∧
    readRef 10 (W1.1.set W1.2 (HVal.arrH [])) (HRef.ref 3) = some WJ := by
  have h := update_tx_builder_heap_no_mutation 10 10 W0 3 Wm W1.1 W1.2 WJ rfl rfl
  exact ⟨h.1, h.2 W1.2 (HVal.arrH []) (ReachH.refl W1.2)⟩

end TokenPools
